import Mathlib

/-!
Verification of the `no-async-promise-executor` lint rule
(`src/rules/no_async_promise_executor.rs`).

The rule walks the whole syntax tree; on every `new`-expression it checks
whether the callee is the bare identifier `Promise` and whether the first
argument's expression, after unwrapping parentheses, is an async function
or async arrow expression; if so it adds one diagnostic anchored at the
`new`-expression's span.

We shallowly embed the fragment of the swc AST the rule inspects, the
recursive matcher `is_async_function`, the visitor `visit_new_expr`, and
the visit-all traversal that threads the mutable `Context` through the
tree, and prove the spec's claims about them.
-/

/-- A source span (swc `Span`), reduced to its byte offsets. -/
structure Span where
  lo : Nat
  hi : Nat
deriving DecidableEq, Repr

/-- One reported diagnostic, as produced by `Context::add_diagnostic_with_hint`. -/
structure Finding where
  code : String
  message : String
  hint : String
  span : Span
deriving DecidableEq, Repr

/-- The fragment of the swc `Expr` tree relevant to the rule: function
expressions and arrow expressions (with their `is_async` flag and a body that
can contain further expressions), parenthesized expressions, identifiers,
member expressions, `new`-expressions (callee, optional argument list where
each argument is an optional spread span paired with its expression, span),
class expressions (whose members host nested bodies), and a literal standing
for every other expression kind. -/
inductive Expr : Type where
  | fnExpr (is_async : Bool) (body : List Expr) (span : Span)
  | arrow (is_async : Bool) (body : List Expr) (span : Span)
  | paren (inner : Expr) (span : Span)
  | ident (sym : String) (span : Span)
  | member (obj : Expr) (prop : String) (span : Span)
  | newExpr (callee : Expr) (args : Option (List (Option Span × Expr))) (span : Span)
  | classExpr (members : List Expr) (span : Span)
  | lit (span : Span)

/-- The lint `Context`: the rule only ever appends diagnostics to it. -/
structure Context where
  diagnostics : List Finding
deriving DecidableEq, Repr

/-- `const CODE: &str = "no-async-promise-executor";` -/
def CODE : String := "no-async-promise-executor"

/-- `const MESSAGE: &str = "Async promise executors are not allowed";` -/
def MESSAGE : String := "Async promise executors are not allowed"

/-- `const HINT: &str = ...` -/
def HINT : String :=
  "Remove `async` from executor function and adjust promise code as needed"

/-- `Context::add_diagnostic_with_hint` appends one diagnostic. -/
def add_diagnostic_with_hint (ctx : Context) (span : Span)
    (code message hint : String) : Context :=
  { diagnostics := ctx.diagnostics ++ [⟨code, message, hint, span⟩] }

/-- `is_async_function` from the source: async function expression, async
arrow expression, or a parenthesized expression whose inner expression is
recursively matched; every other kind gives `false`. -/
def is_async_function : Expr → Bool
  | .fnExpr is_async _ _ => is_async
  | .arrow is_async _ _ => is_async
  | .paren expr _ => is_async_function expr
  | .ident _ _ => false
  | .member _ _ _ => false
  | .newExpr _ _ _ => false
  | .classExpr _ _ => false
  | .lit _ => false

/-- `NoAsyncPromiseExecutorVisitor::visit_new_expr`: if the callee is the
identifier `Promise`, the argument list is present and its first argument's
expression is matched by `is_async_function`, add one diagnostic at the
`new`-expression's span; otherwise leave the context unchanged. -/
def visit_new_expr (ctx : Context) (callee : Expr)
    (args : Option (List (Option Span × Expr))) (span : Span) : Context :=
  match callee with
  | .ident sym _ =>
    if sym ≠ "Promise" then ctx
    else
      match args with
      | some argsList =>
        match argsList.head? with
        | some first_arg =>
          if is_async_function first_arg.2 then
            add_diagnostic_with_hint ctx span CODE MESSAGE HINT
          else ctx
        | none => ctx
      | none => ctx
  | _ => ctx

mutual
/-- The visit-all traversal: every node is visited, and `visit_new_expr`
fires on every `new`-expression (before its children, in source order). -/
def visit_expr (ctx : Context) : Expr → Context
  | .fnExpr _ body _ => visit_exprs ctx body
  | .arrow _ body _ => visit_exprs ctx body
  | .paren inner _ => visit_expr ctx inner
  | .ident _ _ => ctx
  | .member obj _ _ => visit_expr ctx obj
  | .newExpr callee args span =>
    visit_opt_args (visit_expr (visit_new_expr ctx callee args span) callee) args
  | .classExpr members _ => visit_exprs ctx members
  | .lit _ => ctx

/-- Traverse a list of sibling expressions left to right. -/
def visit_exprs (ctx : Context) : List Expr → Context
  | [] => ctx
  | e :: es => visit_exprs (visit_expr ctx e) es

/-- Traverse an optional argument list. -/
def visit_opt_args (ctx : Context) : Option (List (Option Span × Expr)) → Context
  | none => ctx
  | some args => visit_args ctx args

/-- Traverse an argument list left to right (spread spans carry no nodes). -/
def visit_args (ctx : Context) : List (Option Span × Expr) → Context
  | [] => ctx
  | (_, e) :: rest => visit_args (visit_expr ctx e) rest
end

/-- `ProgramRef`: a module or a script, whose body we model as the list of
its top-level expressions. -/
inductive ProgramRef where
  | module (body : List Expr)
  | script (body : List Expr)

/-- `NoAsyncPromiseExecutor::lint_program`: build a fresh visitor over the
given context and run it over the whole program. -/
def lint_program (ctx : Context) : ProgramRef → Context
  | .module m => visit_exprs ctx m
  | .script s => visit_exprs ctx s

/-- `NoAsyncPromiseExecutor::code` -/
def rule_code : String := CODE

/-- `NoAsyncPromiseExecutor::tags` -/
def rule_tags : List String := ["recommended"]

/-! ### Spec-side definitions

These follow the spec's words, to be compared with the source functions. -/

/-- Spec-side: unwrap zero or more parenthesized-expression layers. -/
def stripParens : Expr → Expr
  | .paren inner _ => stripParens inner
  | .fnExpr a b s => .fnExpr a b s
  | .arrow a b s => .arrow a b s
  | .ident i s => .ident i s
  | .member o p s => .member o p s
  | .newExpr c a s => .newExpr c a s
  | .classExpr m s => .classExpr m s
  | .lit s => .lit s

/-- Spec-side: an expression is async-function-like when, after unwrapping
parentheses, it is a function expression or arrow expression with its
is-async flag set. -/
def specAsyncFunctionLike (e : Expr) : Bool :=
  match stripParens e with
  | .fnExpr a _ _ => a
  | .arrow a _ _ => a
  | _ => false

/-- Spec-side: the callee is a bare identifier whose text is the rule's
fixed target name `Promise`. -/
def specCalleeIsTarget : Expr → Bool
  | .ident sym _ => sym == "Promise"
  | _ => false

/-- Spec-side: the argument list is present, nonempty, and its first
argument's expression is async-function-like. -/
def specFirstArgAsync : Option (List (Option Span × Expr)) → Bool
  | some ((_, e) :: _) => specAsyncFunctionLike e
  | some [] => false
  | none => false

/-- Wrap an expression in `n` layers of parentheses. -/
def wrapParens : Nat → Span → Expr → Expr
  | 0, _, e => e
  | n + 1, sp, e => .paren (wrapParens n sp e) sp

/-! ### The new-expression nodes of a tree, in visit order -/

/-- The data of one `new`-expression node: callee, optional arguments, span. -/
structure NewExprData where
  callee : Expr
  args : Option (List (Option Span × Expr))
  span : Span

mutual
/-- All `new`-expression nodes of an expression, in the traversal's order
(each node before those in its children, callee before arguments). -/
def new_exprs : Expr → List NewExprData
  | .fnExpr _ body _ => new_exprs_list body
  | .arrow _ body _ => new_exprs_list body
  | .paren inner _ => new_exprs inner
  | .ident _ _ => []
  | .member obj _ _ => new_exprs obj
  | .newExpr callee args span =>
    ⟨callee, args, span⟩ :: (new_exprs callee ++ new_exprs_opt args)
  | .classExpr members _ => new_exprs_list members
  | .lit _ => []

/-- New-expression nodes of a list of siblings, left to right. -/
def new_exprs_list : List Expr → List NewExprData
  | [] => []
  | e :: es => new_exprs e ++ new_exprs_list es

/-- New-expression nodes of an optional argument list. -/
def new_exprs_opt : Option (List (Option Span × Expr)) → List NewExprData
  | none => []
  | some args => new_exprs_args args

/-- New-expression nodes of an argument list, left to right. -/
def new_exprs_args : List (Option Span × Expr) → List NewExprData
  | [] => []
  | (_, e) :: rest => new_exprs e ++ new_exprs_args rest
end

/-- New-expression nodes of a whole program. -/
def program_new_exprs : ProgramRef → List NewExprData
  | .module m => new_exprs_list m
  | .script s => new_exprs_list s

/-- The diagnostic one matching `new`-expression contributes: one finding
when the callee is the target and the first argument is async-function-like,
nothing otherwise. -/
def emit (d : NewExprData) : Option Finding :=
  if specCalleeIsTarget d.callee && specFirstArgAsync d.args then
    some ⟨CODE, MESSAGE, HINT, d.span⟩
  else
    none

/-! ### Characterization lemmas -/

/-- The source matcher agrees with the spec-side predicate. -/
theorem is_async_function_eq_spec : ∀ e : Expr,
    is_async_function e = specAsyncFunctionLike e
  | .fnExpr a b s => by simp [is_async_function, specAsyncFunctionLike, stripParens]
  | .arrow a b s => by simp [is_async_function, specAsyncFunctionLike, stripParens]
  | .paren inner s => by
    simpa [is_async_function, specAsyncFunctionLike, stripParens] using
      is_async_function_eq_spec inner
  | .ident i s => by simp [is_async_function, specAsyncFunctionLike, stripParens]
  | .member o p s => by simp [is_async_function, specAsyncFunctionLike, stripParens]
  | .newExpr c a s => by simp [is_async_function, specAsyncFunctionLike, stripParens]
  | .classExpr m s => by simp [is_async_function, specAsyncFunctionLike, stripParens]
  | .lit s => by simp [is_async_function, specAsyncFunctionLike, stripParens]

/-- `visit_new_expr` appends exactly `emit` of the node's data. -/
theorem visit_new_expr_diag (ctx : Context) (callee : Expr)
    (args : Option (List (Option Span × Expr))) (span : Span) :
    visit_new_expr ctx callee args span =
      ⟨ctx.diagnostics ++ (emit ⟨callee, args, span⟩).toList⟩ := by
  cases callee with
  | ident sym s =>
    by_cases hsym : sym = "Promise"
    · subst hsym
      cases args with
      | none => simp [visit_new_expr, emit, specCalleeIsTarget, specFirstArgAsync]
      | some argsList =>
        cases argsList with
        | nil => simp [visit_new_expr, emit, specCalleeIsTarget, specFirstArgAsync]
        | cons a rest =>
          rcases a with ⟨sp, e⟩
          by_cases ha : is_async_function e
          · simp [visit_new_expr, emit, specCalleeIsTarget, specFirstArgAsync,
              add_diagnostic_with_hint, ha, ← is_async_function_eq_spec]
          · simp [visit_new_expr, emit, specCalleeIsTarget, specFirstArgAsync,
              ha, ← is_async_function_eq_spec]
    · simp [visit_new_expr, emit, specCalleeIsTarget, hsym]
  | fnExpr a b s => simp [visit_new_expr, emit, specCalleeIsTarget]
  | arrow a b s => simp [visit_new_expr, emit, specCalleeIsTarget]
  | paren i s => simp [visit_new_expr, emit, specCalleeIsTarget]
  | member o p s => simp [visit_new_expr, emit, specCalleeIsTarget]
  | newExpr c a s => simp [visit_new_expr, emit, specCalleeIsTarget]
  | classExpr m s => simp [visit_new_expr, emit, specCalleeIsTarget]
  | lit s => simp [visit_new_expr, emit, specCalleeIsTarget]

/-- Filtering over a cons, phrased with `Option.toList`. -/
theorem filterMap_cons_toList {α β : Type} (f : α → Option β) (x : α) (l : List α) :
    (x :: l).filterMap f = (f x).toList ++ l.filterMap f := by
  cases h : f x <;> simp [List.filterMap_cons, h]

mutual
/-- The traversal appends exactly the emitted diagnostics of the
new-expression nodes, in visit order. -/
theorem visit_expr_diag : ∀ (ctx : Context) (e : Expr),
    visit_expr ctx e = ⟨ctx.diagnostics ++ (new_exprs e).filterMap emit⟩
  | ctx, .fnExpr a body s => by
    simp only [visit_expr, new_exprs]
    exact visit_exprs_diag ctx body
  | ctx, .arrow a body s => by
    simp only [visit_expr, new_exprs]
    exact visit_exprs_diag ctx body
  | ctx, .paren inner s => by
    simp only [visit_expr, new_exprs]
    exact visit_expr_diag ctx inner
  | ctx, .ident i s => by simp [visit_expr, new_exprs]
  | ctx, .member o p s => by
    simp only [visit_expr, new_exprs]
    exact visit_expr_diag ctx o
  | ctx, .newExpr c a s => by
    simp only [visit_expr, new_exprs]
    rw [visit_new_expr_diag ctx c a s, visit_expr_diag _ c, visit_opt_args_diag _ a]
    simp [filterMap_cons_toList, List.append_assoc]
  | ctx, .classExpr m s => by
    simp only [visit_expr, new_exprs]
    exact visit_exprs_diag ctx m
  | ctx, .lit s => by simp [visit_expr, new_exprs]

/-- Sibling-list version of `visit_expr_diag`. -/
theorem visit_exprs_diag : ∀ (ctx : Context) (es : List Expr),
    visit_exprs ctx es = ⟨ctx.diagnostics ++ (new_exprs_list es).filterMap emit⟩
  | ctx, [] => by simp [visit_exprs, new_exprs_list]
  | ctx, e :: es => by
    simp only [visit_exprs, new_exprs_list]
    rw [visit_expr_diag ctx e, visit_exprs_diag _ es]
    simp [List.append_assoc]

/-- Optional-argument-list version of `visit_expr_diag`. -/
theorem visit_opt_args_diag : ∀ (ctx : Context) (a : Option (List (Option Span × Expr))),
    visit_opt_args ctx a = ⟨ctx.diagnostics ++ (new_exprs_opt a).filterMap emit⟩
  | ctx, none => by simp [visit_opt_args, new_exprs_opt]
  | ctx, some args => by
    simp only [visit_opt_args, new_exprs_opt]
    exact visit_args_diag ctx args

/-- Argument-list version of `visit_expr_diag`. -/
theorem visit_args_diag : ∀ (ctx : Context) (l : List (Option Span × Expr)),
    visit_args ctx l = ⟨ctx.diagnostics ++ (new_exprs_args l).filterMap emit⟩
  | ctx, [] => by simp [visit_args, new_exprs_args]
  | ctx, (sp, e) :: rest => by
    simp only [visit_args, new_exprs_args]
    rw [visit_expr_diag ctx e, visit_args_diag _ rest]
    simp [List.append_assoc]
end

/-- Program-level characterization: linting appends exactly one finding per
matching new-expression node, in visit order. -/
theorem lint_program_diag (ctx : Context) (p : ProgramRef) :
    lint_program ctx p = ⟨ctx.diagnostics ++ (program_new_exprs p).filterMap emit⟩ := by
  cases p with
  | module m =>
    simp only [lint_program, program_new_exprs]
    exact visit_exprs_diag ctx m
  | script s =>
    simp only [lint_program, program_new_exprs]
    exact visit_exprs_diag ctx s

/-- The emitted findings are exactly one fixed finding per matching node. -/
theorem filterMap_emit_eq_map_filter (L : List NewExprData) :
    L.filterMap emit =
      (L.filter (fun d => specCalleeIsTarget d.callee && specFirstArgAsync d.args)).map
        (fun d => ⟨CODE, MESSAGE, HINT, d.span⟩) := by
  induction L with
  | nil => simp
  | cons d rest ih =>
    by_cases h : (specCalleeIsTarget d.callee && specFirstArgAsync d.args) = true
    · simp [List.filterMap_cons, List.filter_cons, emit, h, ih]
    · simp [List.filterMap_cons, List.filter_cons, emit, h, ih]

/-- C1: for every constructor-call node whose callee is the bare identifier
`Promise` and whose first argument's expression is async-function-like after
unwrapping parentheses, exactly one Finding is produced; every other
constructor-call node produces none. The lint output is exactly the list of
matching nodes mapped to their one finding, and its length is the number of
matching nodes. -/
theorem spec_c1 (p : ProgramRef) :
    (lint_program ⟨[]⟩ p).diagnostics =
      ((program_new_exprs p).filter
        (fun d => specCalleeIsTarget d.callee && specFirstArgAsync d.args)).map
        (fun d => ⟨CODE, MESSAGE, HINT, d.span⟩)
    ∧ (lint_program ⟨[]⟩ p).diagnostics.length =
      ((program_new_exprs p).filter
        (fun d => specCalleeIsTarget d.callee && specFirstArgAsync d.args)).length := by
  rw [lint_program_diag]
  simp [filterMap_emit_eq_map_filter]

/-- C2: `is_async_function` is total and true exactly on async function
expressions, async arrow expressions, and parenthesized expressions whose
inner expression recursively satisfies it; it is invariant under any number
of parenthesis layers. -/
theorem spec_c2 (e : Expr) (n : Nat) (sp : Span) :
    (is_async_function e = true ↔
      ((∃ body s, e = .fnExpr true body s) ∨
       (∃ body s, e = .arrow true body s) ∨
       (∃ inner s, e = .paren inner s ∧ is_async_function inner = true)))
    ∧ is_async_function (wrapParens n sp e) = is_async_function e := by
  constructor
  · cases e <;> simp [is_async_function]
  · induction n with
    | zero => simp [wrapParens]
    | succ k ih => simp [wrapParens, is_async_function, ih]

/-- `new Promise((resolve, reject) => \x7b\x7d, async function unrelated() \x7b\x7d)`:
the async function is the second argument. -/
def example_second_arg_async : ProgramRef :=
  .script [.newExpr (.ident "Promise" ⟨4, 11⟩)
    (some [(none, .arrow false [] ⟨12, 36⟩), (none, .fnExpr true [] ⟨38, 68⟩)])
    ⟨0, 69⟩]

/-- C3: only the first argument of a constructor call is inspected: the
visitor's outcome ignores every later argument, and when the first argument
is not async-function-like no Finding is produced whatever the tail holds;
in particular the spec's two-argument scenario yields no finding. -/
theorem spec_c3 (ctx : Context) (callee : Expr) (span : Span)
    (a : Option Span × Expr) (rest : List (Option Span × Expr)) :
    visit_new_expr ctx callee (some (a :: rest)) span =
      visit_new_expr ctx callee (some [a]) span
    ∧ (is_async_function a.2 = false →
        visit_new_expr ctx callee (some (a :: rest)) span = ctx)
    ∧ (lint_program ⟨[]⟩ example_second_arg_async).diagnostics = [] := by
  refine ⟨?_, ?_, ?_⟩
  · cases callee <;> simp [visit_new_expr]
  · intro h
    cases callee with
    | ident sym s =>
      by_cases hsym : sym = "Promise" <;> simp [visit_new_expr, hsym, h]
    | fnExpr x b s => simp [visit_new_expr]
    | arrow x b s => simp [visit_new_expr]
    | paren i s => simp [visit_new_expr]
    | member o pr s => simp [visit_new_expr]
    | newExpr c g s => simp [visit_new_expr]
    | classExpr m s => simp [visit_new_expr]
    | lit s => simp [visit_new_expr]
  · rw [lint_program_diag]
    simp [example_second_arg_async, program_new_exprs, new_exprs_list, new_exprs,
      new_exprs_opt, new_exprs_args, emit, specCalleeIsTarget, specFirstArgAsync,
      specAsyncFunctionLike, stripParens]

/-- Witness for C3 at the spec's concrete two-argument scenario. -/
theorem spec_c3_witness :
    visit_new_expr ⟨[]⟩ (.ident "Promise" ⟨4, 11⟩)
      (some [(none, .arrow false [] ⟨12, 36⟩), (none, .fnExpr true [] ⟨38, 68⟩)])
      ⟨0, 69⟩ = ⟨[]⟩ :=
  (spec_c3 ⟨[]⟩ (.ident "Promise" ⟨4, 11⟩) ⟨0, 69⟩
      (none, .arrow false [] ⟨12, 36⟩) [(none, .fnExpr true [] ⟨38, 68⟩)]).2.1
    (by simp [is_async_function])

/-- The spec's nested scenario: a class expression whose method body holds
`new Promise(async function(resolve, reject) \x7b\x7d)` at inner span 33-89. -/
def example_nested_class : ProgramRef :=
  .script [.newExpr
    (.classExpr
      [.fnExpr false
        [.newExpr (.ident "Promise" ⟨41, 48⟩)
          (some [(none, .fnExpr true [] ⟨49, 88⟩)]) ⟨33, 89⟩]
        ⟨20, 95⟩]
      ⟨14, 97⟩)
    none ⟨10, 97⟩]

/-- C4: every emitted Finding is the fixed record anchored at the span of a
matching constructor-call node of the tree (never at the inner async node's
span), and the nested-class scenario reports exactly the inner
constructor-call's own span. -/
theorem spec_c4 (p : ProgramRef) (f : Finding)
    (h : f ∈ (lint_program ⟨[]⟩ p).diagnostics) :
    (∃ d ∈ program_new_exprs p,
      (specCalleeIsTarget d.callee && specFirstArgAsync d.args) = true ∧
      f.span = d.span ∧ f = ⟨CODE, MESSAGE, HINT, d.span⟩)
    ∧ (lint_program ⟨[]⟩ example_nested_class).diagnostics =
        [⟨CODE, MESSAGE, HINT, ⟨33, 89⟩⟩] := by
  constructor
  · rw [lint_program_diag] at h
    simp only [List.nil_append, List.mem_filterMap] at h
    obtain ⟨d, hd, hemit⟩ := h
    refine ⟨d, hd, ?_⟩
    unfold emit at hemit
    by_cases hc : (specCalleeIsTarget d.callee && specFirstArgAsync d.args) = true
    · simp only [hc, if_true, Option.some.injEq] at hemit
      subst hemit
      exact ⟨hc, rfl, rfl⟩
    · simp [hc] at hemit
  · rw [lint_program_diag]
    simp [example_nested_class, program_new_exprs, new_exprs_list, new_exprs,
      new_exprs_opt, new_exprs_args, emit, specCalleeIsTarget, specFirstArgAsync,
      specAsyncFunctionLike, stripParens]

/-- Witness for C4 at the nested-class scenario's one finding. -/
theorem spec_c4_witness :
    ∃ d ∈ program_new_exprs example_nested_class,
      (specCalleeIsTarget d.callee && specFirstArgAsync d.args) = true ∧
      (⟨CODE, MESSAGE, HINT, ⟨33, 89⟩⟩ : Finding).span = d.span ∧
      (⟨CODE, MESSAGE, HINT, ⟨33, 89⟩⟩ : Finding) = ⟨CODE, MESSAGE, HINT, d.span⟩ :=
  (spec_c4 example_nested_class ⟨CODE, MESSAGE, HINT, ⟨33, 89⟩⟩
    (by
      rw [lint_program_diag]
      simp [example_nested_class, program_new_exprs, new_exprs_list, new_exprs,
        new_exprs_opt, new_exprs_args, emit, specCalleeIsTarget, specFirstArgAsync,
        specAsyncFunctionLike, stripParens])).1

/-- C5: callee matching is name-based only: a non-identifier callee, or an
identifier whose text differs from `Promise`, never produces a Finding,
whatever the arguments are. -/
theorem spec_c5 (ctx : Context) (args : Option (List (Option Span × Expr)))
    (span : Span) :
    (∀ callee : Expr, (∀ sym s, callee ≠ .ident sym s) →
      visit_new_expr ctx callee args span = ctx)
    ∧ (∀ sym s, sym ≠ "Promise" →
      visit_new_expr ctx (.ident sym s) args span = ctx) := by
  constructor
  · intro callee hne
    cases callee with
    | ident sym s => exact absurd rfl (hne sym s)
    | fnExpr x b s => simp [visit_new_expr]
    | arrow x b s => simp [visit_new_expr]
    | paren i s => simp [visit_new_expr]
    | member o pr s => simp [visit_new_expr]
    | newExpr c g s => simp [visit_new_expr]
    | classExpr m s => simp [visit_new_expr]
    | lit s => simp [visit_new_expr]
  · intro sym s hsym
    simp [visit_new_expr, hsym]

/-- Witness for C5: `new ns.Promise(async () => ...)` and
`new Foo(async () => ...)` produce no finding. -/
theorem spec_c5_witness :
    visit_new_expr ⟨[]⟩ (.member (.ident "ns" ⟨4, 6⟩) "Promise" ⟨4, 14⟩)
      (some [(none, .arrow true [] ⟨15, 35⟩)]) ⟨0, 36⟩ = ⟨[]⟩
    ∧ visit_new_expr ⟨[]⟩ (.ident "Foo" ⟨4, 7⟩)
      (some [(none, .arrow true [] ⟨8, 35⟩)]) ⟨0, 36⟩ = ⟨[]⟩ :=
  ⟨(spec_c5 ⟨[]⟩ (some [(none, .arrow true [] ⟨15, 35⟩)]) ⟨0, 36⟩).1
      (.member (.ident "ns" ⟨4, 6⟩) "Promise" ⟨4, 14⟩) (by intro sym s; simp),
   (spec_c5 ⟨[]⟩ (some [(none, .arrow true [] ⟨8, 35⟩)]) ⟨0, 36⟩).2
      "Foo" ⟨4, 7⟩ (by decide)⟩

/-- C6: the rule is a deterministic pure function of the tree: what a run
appends to the context depends only on the program, so the findings added by
a run are the same whatever diagnostics the context already holds, and two
consecutive runs append the same list twice. -/
theorem spec_c6 (ctx ctx2 : Context) (p : ProgramRef) :
    (lint_program ctx p).diagnostics =
      ctx.diagnostics ++ (lint_program ⟨[]⟩ p).diagnostics
    ∧ (lint_program ctx p).diagnostics.drop ctx.diagnostics.length =
      (lint_program ctx2 p).diagnostics.drop ctx2.diagnostics.length
    ∧ (lint_program (lint_program ctx p) p).diagnostics =
      ctx.diagnostics ++ (lint_program ⟨[]⟩ p).diagnostics
        ++ (lint_program ⟨[]⟩ p).diagnostics := by
  simp only [lint_program_diag]
  simp [List.drop_left, List.append_assoc]

/-- C7: the matcher and visitor resolve every grammar-permitted node shape
without faulting: a non-matching callee or non-matching first argument
leaves the context unchanged, absent and empty argument lists leave it
unchanged, and visiting any expression only ever appends findings to the
context it was given. -/
theorem spec_c7 (ctx : Context) (callee : Expr)
    (args : Option (List (Option Span × Expr))) (span : Span) :
    ((specCalleeIsTarget callee = false ∨ specFirstArgAsync args = false) →
      visit_new_expr ctx callee args span = ctx)
    ∧ visit_new_expr ctx callee none span = ctx
    ∧ visit_new_expr ctx callee (some []) span = ctx
    ∧ (∀ e : Expr, ∃ added : List Finding,
        visit_expr ctx e = ⟨ctx.diagnostics ++ added⟩) := by
  refine ⟨?_, ?_, ?_, ?_⟩
  · intro h
    rw [visit_new_expr_diag]
    rcases h with h | h <;> simp [emit, h]
  · rw [visit_new_expr_diag]
    simp [emit, specFirstArgAsync]
  · rw [visit_new_expr_diag]
    simp [emit, specFirstArgAsync]
  · intro e
    exact ⟨(new_exprs e).filterMap emit, visit_expr_diag ctx e⟩

/-- Witness for C7: a `Foo` callee with an async argument leaves the
context unchanged. -/
theorem spec_c7_witness :
    visit_new_expr ⟨[]⟩ (.ident "Foo" ⟨4, 7⟩)
      (some [(none, .arrow true [] ⟨8, 35⟩)]) ⟨0, 36⟩ = ⟨[]⟩ :=
  (spec_c7 ⟨[]⟩ (.ident "Foo" ⟨4, 7⟩)
      (some [(none, .arrow true [] ⟨8, 35⟩)]) ⟨0, 36⟩).1
    (Or.inl (by decide))

/-- C9: a constructor call with the target callee but an absent argument
list (the arguments field is `none`, as in `new Promise` without
parentheses) produces no Finding and no error: linting such a program
yields an empty diagnostics list. -/
theorem spec_c9 (ctx : Context) (callee : Expr) (span : Span) :
    visit_new_expr ctx callee none span = ctx
    ∧ (lint_program ⟨[]⟩
        (.script [.newExpr (.ident "Promise" ⟨4, 11⟩) none ⟨0, 11⟩])).diagnostics
      = [] := by
  constructor
  · rw [visit_new_expr_diag]
    simp [emit, specFirstArgAsync]
  · rw [lint_program_diag]
    simp [program_new_exprs, new_exprs_list, new_exprs, new_exprs_opt, emit,
      specCalleeIsTarget, specFirstArgAsync]

/-- `new Promise(...(async () => \x7b\x7d))`: the first argument is a spread
of a parenthesized async arrow. -/
def example_spread : ProgramRef :=
  .script [.newExpr (.ident "Promise" ⟨4, 11⟩)
    (some [(some ⟨12, 15⟩, .paren (.arrow true [] ⟨16, 33⟩) ⟨15, 34⟩)])
    ⟨0, 36⟩]

/-- C10: the matcher is applied to the first argument's expression whether
or not the argument carries a spread marker: the visitor's outcome does not
depend on the spread field, and the concrete spread-of-async-arrow program
is flagged exactly as without the spread. -/
theorem spec_c10 (ctx : Context) (callee : Expr) (sp : Option Span) (e : Expr)
    (rest : List (Option Span × Expr)) (span : Span) :
    visit_new_expr ctx callee (some ((sp, e) :: rest)) span =
      visit_new_expr ctx callee (some ((none, e) :: rest)) span
    ∧ (lint_program ⟨[]⟩ example_spread).diagnostics =
        [⟨CODE, MESSAGE, HINT, ⟨0, 36⟩⟩] := by
  constructor
  · cases callee <;> simp [visit_new_expr]
  · rw [lint_program_diag]
    simp [example_spread, program_new_exprs, new_exprs_list, new_exprs,
      new_exprs_opt, new_exprs_args, emit, specCalleeIsTarget, specFirstArgAsync,
      specAsyncFunctionLike, stripParens]

/-- `NoAsyncPromiseExecutor::docs`, text before the invalid-example heading. -/
def docs_intro : String :=
  "Requires that async promise executor functions are not used\n\n" ++
  "Promise constructors take an executor function as an argument with `resolve` and \n" ++
  "`reject` parameters that can be used to control the state of the created Promise.\n" ++
  "This function is allowed to be async but this is generally not a good idea for\n" ++
  "several reasons:\n" ++
  "* If an async executor function throws an error, the error will be lost and won\x27t\n" ++
  "cause the newly-constructed Promise to reject. This could make it difficult to\n" ++
  "debug and handle some errors.\n" ++
  "* If an async Promise executor function is using await, then this is usually a\n" ++
  "sign that it is not actually necessary to use the new Promise constructor and the\n" ++
  "code can be restructured to avoid the use of a promise, or the scope of the new\n" ++
  "Promise constructor can be reduced, extracting the async code and changing it to\n" ++
  "be synchronous.\n\n"

/-- `NoAsyncPromiseExecutor::docs`, the invalid examples block. -/
def docs_invalid_block : String :=
  "\n```typescript\n" ++
  "new Promise(async function(resolve, reject) \x7b\x7d);\n" ++
  "new Promise(async (resolve, reject) => \x7b\x7d);\n" ++
  "```\n    \n"

/-- `NoAsyncPromiseExecutor::docs`, the valid examples block. -/
def docs_valid_block : String :=
  "\n```typescript\n" ++
  "new Promise(function(resolve, reject) \x7b\x7d);\n" ++
  "new Promise((resolve, reject) => \x7b\x7d);\n" ++
  "```\n"

/-- `NoAsyncPromiseExecutor::docs`: the rule documentation string. -/
def docs : String :=
  docs_intro ++ "### Invalid:" ++ docs_invalid_block ++ "### Valid:" ++ docs_valid_block

/-- `new Promise(async function(resolve, reject) \x7b\x7d);` -/
def example_invalid : ProgramRef :=
  .script [.newExpr (.ident "Promise" ⟨4, 11⟩)
    (some [(none, .fnExpr true [] ⟨12, 46⟩)]) ⟨0, 47⟩]

/-- C8: the rule descriptor is fixed metadata: the code is the constant
unique string, the tags are exactly the recommended tag, every emitted
Finding carries the fixed code, message and hint, and the documentation
splits around one invalid-examples and one valid-examples section. -/
theorem spec_c8 (p : ProgramRef) (f : Finding)
    (h : f ∈ (lint_program ⟨[]⟩ p).diagnostics) :
    rule_code = "no-async-promise-executor"
    ∧ rule_tags = ["recommended"]
    ∧ "recommended" ∈ rule_tags
    ∧ f.code = CODE ∧ f.message = MESSAGE ∧ f.hint = HINT
    ∧ ∃ pre mid post : String,
        docs = pre ++ "### Invalid:" ++ mid ++ "### Valid:" ++ post := by
  rw [lint_program_diag] at h
  simp only [List.nil_append, List.mem_filterMap] at h
  obtain ⟨d, _, hemit⟩ := h
  unfold emit at hemit
  by_cases hc : (specCalleeIsTarget d.callee && specFirstArgAsync d.args) = true
  · simp only [hc, if_true, Option.some.injEq] at hemit
    subst hemit
    exact ⟨rfl, rfl, by simp [rule_tags], rfl, rfl, rfl,
      docs_intro, docs_invalid_block, docs_valid_block, rfl⟩
  · simp [hc] at hemit

/-- Witness for C8 at the concrete invalid program's one finding. -/
theorem spec_c8_witness :
    rule_code = "no-async-promise-executor"
    ∧ rule_tags = ["recommended"]
    ∧ "recommended" ∈ rule_tags
    ∧ (⟨CODE, MESSAGE, HINT, ⟨0, 47⟩⟩ : Finding).code = CODE
    ∧ (⟨CODE, MESSAGE, HINT, ⟨0, 47⟩⟩ : Finding).message = MESSAGE
    ∧ (⟨CODE, MESSAGE, HINT, ⟨0, 47⟩⟩ : Finding).hint = HINT
    ∧ ∃ pre mid post : String,
        docs = pre ++ "### Invalid:" ++ mid ++ "### Valid:" ++ post :=
  spec_c8 example_invalid ⟨CODE, MESSAGE, HINT, ⟨0, 47⟩⟩
    (by
      rw [lint_program_diag]
      simp [example_invalid, program_new_exprs, new_exprs_list, new_exprs,
        new_exprs_opt, new_exprs_args, emit, specCalleeIsTarget, specFirstArgAsync,
        specAsyncFunctionLike, stripParens])
